import Mathlib

/-
Verification development for the FindPaper repository.

Part 1 models the quota subsystem of src/database/supabase_setup.sql:
the tables profiles, user_usage and anon_usage become association lists
keyed by Nat (standing for UUID), and the three RPC functions
consume_user_quota, consume_anon_quota and get_user_quota_info are
translated statement by statement under sequential semantics.

Part 2 models the client of src/frontend/App.tsx: the conversation
store, the conversation management handlers, and the SSE stream
consumer inside handleSend (buffer accumulation, line scanning,
processSSELine, the post-stream result check and the catch block).
JavaScript strings are modelled as List Char.
-/

namespace FindPaper

/-! ### Generic association-list primitives (SQL tables and the JS object `conversationData`) -/

def alookup {κ α : Type} [DecidableEq κ] : List (κ × α) → κ → Option α
  | [], _ => none
  | (k, v) :: r, k2 => if k2 = k then some v else alookup r k2

/-- INSERT INTO t VALUES (k, v) ON CONFLICT (k) DO NOTHING. -/
def insertIfAbsent {κ α : Type} [DecidableEq κ] (t : List (κ × α)) (k : κ) (v : α) : List (κ × α) :=
  match alookup t k with
  | some _ => t
  | none => t ++ [(k, v)]

/-- UPDATE of the row with key k (no effect when the key is absent). -/
def aset {κ α : Type} [DecidableEq κ] : List (κ × α) → κ → α → List (κ × α)
  | [], _, _ => []
  | (k, v) :: r, k2, v2 => if k2 = k then (k, v2) :: r else (k, v) :: aset r k2 v2

/-- Upsert, modelling the JS assignment `obj[k] = v`. -/
def astore {κ α : Type} [DecidableEq κ] (t : List (κ × α)) (k : κ) (v : α) : List (κ × α) :=
  match alookup t k with
  | some _ => aset t k v
  | none => t ++ [(k, v)]

/-- Removal of a key, modelling the JS statement `delete obj[k]`. -/
def aerase {κ α : Type} [DecidableEq κ] (t : List (κ × α)) (k : κ) : List (κ × α) :=
  t.filter (fun e => if e.1 = k then false else true)

/-! ### Quota store: tables and RPC functions of supabase_setup.sql -/

inductive Plan where
  | free
  | pro
deriving DecidableEq

/-- Database state: the three tables of supabase_setup.sql that the quota
RPCs touch.  Keys are Nat, standing for the UUID columns; the value of a
usage row is its used_count.  Timestamp columns are not modelled. -/
structure DB where
  profiles : List (Nat × Plan)
  user_usage : List (Nat × Nat)
  anon_usage : List (Nat × Nat)
deriving DecidableEq

/-- UPDATE t SET used_count = used_count + 1 WHERE key = k AND used_count < lim
RETURNING used_count.  Returns the updated table and the RETURNING value
(none when no row satisfied the WHERE clause). -/
def updateIfBelow (t : List (Nat × Nat)) (k lim : Nat) : List (Nat × Nat) × Option Nat :=
  match alookup t k with
  | some c => if c < lim then (aset t k (c + 1), some (c + 1)) else (t, none)
  | none => (t, none)

/-- consume_anon_quota(p_anon_id) of supabase_setup.sql, lines 156-199,
under sequential semantics.  Returns the new database state and the
INTEGER result (remaining quota, or -1 for denial). -/
def consume_anon_quota (db : DB) (aid : Nat) : DB × Int :=
  let t1 := insertIfAbsent db.anon_usage aid 0
  let r := updateIfBelow t1 aid 3
  let db2 : DB := { db with anon_usage := r.1 }
  match r.2 with
  | some c => (db2, (3 : Int) - (c : Int))
  | none =>
    match alookup r.1 aid with
    | none => (db2, -1)
    | some c => if 3 ≤ c then (db2, -1) else (db2, (3 : Int) - (c : Int))

/-- consume_user_quota(p_user_id) of supabase_setup.sql, lines 88-151,
under sequential semantics. -/
def consume_user_quota (db : DB) (uid : Nat) : DB × Int :=
  let sel := alookup db.profiles uid
  let db1 : DB :=
    match sel with
    | none => { db with profiles := insertIfAbsent db.profiles uid Plan.free }
    | some _ => db
  let v_plan : Plan :=
    match sel with
    | none => Plan.free
    | some p => p
  if v_plan = Plan.pro then (db1, 999999)
  else
    let t1 := insertIfAbsent db1.user_usage uid 0
    let r := updateIfBelow t1 uid 50
    let db2 : DB := { db1 with user_usage := r.1 }
    match r.2 with
    | some c => (db2, (50 : Int) - (c : Int))
    | none =>
      match alookup r.1 uid with
      | none => (db2, -1)
      | some c => if 50 ≤ c then (db2, -1) else (db2, (50 : Int) - (c : Int))

/-- Result row of get_user_quota_info, mirroring its json_build_object. -/
structure QuotaInfo where
  plan : Plan
  used_count : Nat
  limit : Nat
  remaining : Int
deriving DecidableEq

/-- get_user_quota_info(p_user_id) of supabase_setup.sql, lines 235-283.
The function body consists of SELECT statements and pure computation
only, so the database state is passed through unchanged. -/
def get_user_quota_info (db : DB) (uid : Nat) : DB × QuotaInfo :=
  let v_plan : Plan :=
    match alookup db.profiles uid with
    | none => Plan.free
    | some p => p
  let v_used : Nat :=
    match alookup db.user_usage uid with
    | none => 0
    | some c => c
  if v_plan = Plan.pro then
    (db, { plan := v_plan, used_count := v_used, limit := 999999, remaining := 999999 })
  else
    (db, { plan := v_plan, used_count := v_used, limit := 50, remaining := max 0 ((50 : Int) - (v_used : Int)) })

/-- used_count of a registered user as the RPC sees it before consuming
(0 when no row exists yet). -/
def userCount (db : DB) (uid : Nat) : Nat :=
  match alookup db.user_usage uid with
  | none => 0
  | some c => c

/-- used_count of an anonymous subject (0 when no row exists yet). -/
def anonCount (db : DB) (aid : Nat) : Nat :=
  match alookup db.anon_usage aid with
  | none => 0
  | some c => c

/-- Database state after k successive consume_user_quota calls for uid. -/
def stateAfter (db : DB) (uid : Nat) : Nat → DB
  | 0 => db
  | k + 1 => (consume_user_quota (stateAfter db uid k) uid).1

/-- Value returned by the (k+1)-th successive consume_user_quota call. -/
def nthConsume (db : DB) (uid : Nat) (k : Nat) : Int :=
  (consume_user_quota (stateAfter db uid k) uid).2

/-! ### Association-list lemmas -/

theorem alookup_append_self {κ α : Type} [DecidableEq κ] :
    ∀ (t : List (κ × α)) (k : κ) (v : α), alookup t k = none →
      alookup (t ++ [(k, v)]) k = some v
  | [], k, v, _ => by simp [alookup]
  | (a, b) :: r, k, v, h => by
    simp only [alookup, List.cons_append] at h ⊢
    by_cases hk : k = a
    · simp [hk] at h
    · simp only [if_neg hk] at h ⊢
      exact alookup_append_self r k v h

theorem alookup_insertIfAbsent_self {κ α : Type} [DecidableEq κ]
    (t : List (κ × α)) (k : κ) (v : α) :
    alookup (insertIfAbsent t k v) k = some ((alookup t k).getD v) := by
  cases h : alookup t k with
  | none => simp [insertIfAbsent, h, alookup_append_self t k v h]
  | some c => simp [insertIfAbsent, h]

theorem alookup_aset_self {κ α : Type} [DecidableEq κ] :
    ∀ (t : List (κ × α)) (k : κ) (v2 : α) (c : α), alookup t k = some c →
      alookup (aset t k v2) k = some v2
  | [], _, _, _, h => by simp [alookup] at h
  | (a, b) :: r, k, v2, c, h => by
    simp only [alookup, aset] at h ⊢
    by_cases hk : k = a
    · simp [hk, alookup]
    · simp only [if_neg hk] at h ⊢
      simp only [alookup, if_neg hk]
      exact alookup_aset_self r k v2 c h

/-! ### Behaviour of the consume RPCs (sequential semantics) -/

/-- One consume_anon_quota call, characterised by the pre-call count. -/
theorem consume_anon_spec (db : DB) (aid : Nat) :
    ((consume_anon_quota db aid).1.profiles = db.profiles
      ∧ (consume_anon_quota db aid).1.user_usage = db.user_usage)
    ∧ (anonCount db aid < 3 →
        anonCount (consume_anon_quota db aid).1 aid = anonCount db aid + 1
        ∧ (consume_anon_quota db aid).2 = (3 : Int) - ((anonCount db aid : Int) + 1))
    ∧ (3 ≤ anonCount db aid →
        (consume_anon_quota db aid).1 = db ∧ (consume_anon_quota db aid).2 = -1) := by
  cases h : alookup db.anon_usage aid with
  | none =>
    have h0 : anonCount db aid = 0 := by simp [anonCount, h]
    have hI : alookup (insertIfAbsent db.anon_usage aid 0) aid = some 0 := by
      simpa [h] using alookup_insertIfAbsent_self db.anon_usage aid 0
    have hA : alookup (aset (insertIfAbsent db.anon_usage aid 0) aid 1) aid = some 1 :=
      alookup_aset_self _ aid 1 0 hI
    refine ⟨?_, ?_, ?_⟩
    · constructor <;> simp [consume_anon_quota, updateIfBelow, hI]
    · intro _
      constructor
      · simp [consume_anon_quota, updateIfBelow, hI, anonCount, hA, h]
      · simp [consume_anon_quota, updateIfBelow, hI, h0]
    · intro hge
      omega
  | some c =>
    have h0 : anonCount db aid = c := by simp [anonCount, h]
    have hI : insertIfAbsent db.anon_usage aid 0 = db.anon_usage := by
      simp [insertIfAbsent, h]
    by_cases hlt : c < 3
    · have hA : alookup (aset db.anon_usage aid (c + 1)) aid = some (c + 1) :=
        alookup_aset_self _ aid (c + 1) c h
      refine ⟨?_, ?_, ?_⟩
      · constructor <;> simp [consume_anon_quota, updateIfBelow, hI, h, hlt]
      · intro _
        constructor
        · simp [consume_anon_quota, updateIfBelow, hI, h, hlt, anonCount, hA]
        · simp [consume_anon_quota, updateIfBelow, hI, h, hlt, h0]
      · intro hge
        omega
    · have hge : 3 ≤ c := by omega
      refine ⟨?_, ?_, ?_⟩
      · constructor <;> simp [consume_anon_quota, updateIfBelow, hI, h, hlt, hge]
      · intro hc
        omega
      · intro _
        constructor
        · simp [consume_anon_quota, updateIfBelow, hI, h, hlt, hge]
        · simp [consume_anon_quota, updateIfBelow, hI, h, hlt, hge]

/-- One consume_user_quota call for a subject whose profile row says free,
characterised by the pre-call count. -/
theorem consume_user_free_spec (db : DB) (uid : Nat)
    (hp : alookup db.profiles uid = some Plan.free) :
    ((consume_user_quota db uid).1.profiles = db.profiles
      ∧ (consume_user_quota db uid).1.anon_usage = db.anon_usage)
    ∧ (userCount db uid < 50 →
        userCount (consume_user_quota db uid).1 uid = userCount db uid + 1
        ∧ (consume_user_quota db uid).2 = (50 : Int) - ((userCount db uid : Int) + 1))
    ∧ (50 ≤ userCount db uid →
        (consume_user_quota db uid).1 = db ∧ (consume_user_quota db uid).2 = -1) := by
  cases h : alookup db.user_usage uid with
  | none =>
    have h0 : userCount db uid = 0 := by simp [userCount, h]
    have hI : alookup (insertIfAbsent db.user_usage uid 0) uid = some 0 := by
      simpa [h] using alookup_insertIfAbsent_self db.user_usage uid 0
    have hA : alookup (aset (insertIfAbsent db.user_usage uid 0) uid 1) uid = some 1 :=
      alookup_aset_self _ uid 1 0 hI
    refine ⟨?_, ?_, ?_⟩
    · constructor <;> simp [consume_user_quota, hp, updateIfBelow, hI]
    · intro _
      constructor
      · simp [consume_user_quota, hp, updateIfBelow, hI, userCount, hA, h]
      · simp [consume_user_quota, hp, updateIfBelow, hI, h0]
    · intro hge
      omega
  | some c =>
    have h0 : userCount db uid = c := by simp [userCount, h]
    have hI : insertIfAbsent db.user_usage uid 0 = db.user_usage := by
      simp [insertIfAbsent, h]
    by_cases hlt : c < 50
    · have hA : alookup (aset db.user_usage uid (c + 1)) uid = some (c + 1) :=
        alookup_aset_self _ uid (c + 1) c h
      refine ⟨?_, ?_, ?_⟩
      · constructor <;> simp [consume_user_quota, hp, updateIfBelow, hI, h, hlt]
      · intro _
        constructor
        · simp [consume_user_quota, hp, updateIfBelow, hI, h, hlt, userCount, hA]
        · simp [consume_user_quota, hp, updateIfBelow, hI, h, hlt, h0]
      · intro hge
        omega
    · have hge : 50 ≤ c := by omega
      refine ⟨?_, ?_, ?_⟩
      · constructor <;> simp [consume_user_quota, hp, updateIfBelow, hI, h, hlt, hge]
      · intro hc
        omega
      · intro _
        constructor
        · simp [consume_user_quota, hp, updateIfBelow, hI, h, hlt, hge]
        · simp [consume_user_quota, hp, updateIfBelow, hI, h, hlt, hge]

/-- After k successive consume_user_quota calls of a free subject whose
initial count is c ≤ 50, the profile row is still free and the stored
count is min (c + k) 50. -/
theorem stateAfter_free_inv (db : DB) (uid : Nat) (c : Nat)
    (hp : alookup db.profiles uid = some Plan.free)
    (hc : userCount db uid = c) (hle : c ≤ 50) :
    ∀ k, alookup (stateAfter db uid k).profiles uid = some Plan.free
      ∧ userCount (stateAfter db uid k) uid = min (c + k) 50 := by
  intro k
  induction k with
  | zero => simpa [stateAfter, hc] using ⟨hp, by omega⟩
  | succ k ih =>
    obtain ⟨ihp, ihc⟩ := ih
    have hspec := consume_user_free_spec (stateAfter db uid k) uid ihp
    by_cases hlt : userCount (stateAfter db uid k) uid < 50
    · have h1 := (hspec.2.1 hlt).1
      constructor
      · simpa [stateAfter, hspec.1.1] using ihp
      · simp only [stateAfter]
        rw [h1, ihc]
        omega
    · have hge : 50 ≤ userCount (stateAfter db uid k) uid := by omega
      have h1 := hspec.2.2 hge
      constructor
      · simpa [stateAfter, h1.1] using ihp
      · simp only [stateAfter, h1.1]
        rw [ihc]
        omega

/-- C2.  For an anonymous subject (limit 3) and a registered-free subject
(limit 50), one consume call (a) ensures a usage row exists, created with
used_count 0 when absent, (b) increments used_count by exactly 1 iff the
pre-increment count is below the limit, and (c) returns remaining =
limit - post-increment count on success and -1 on denial. -/
theorem c2_quota_consume (db : DB) (sid uid : Nat)
    (hfree : alookup db.profiles uid = some Plan.free) :
    (alookup (insertIfAbsent db.anon_usage sid 0) sid = some (anonCount db sid)
      ∧ (anonCount db sid < 3 →
          anonCount (consume_anon_quota db sid).1 sid = anonCount db sid + 1
          ∧ (consume_anon_quota db sid).2 = (3 : Int) - ((anonCount db sid : Int) + 1))
      ∧ (3 ≤ anonCount db sid →
          anonCount (consume_anon_quota db sid).1 sid = anonCount db sid
          ∧ (consume_anon_quota db sid).2 = -1))
    ∧ (alookup (insertIfAbsent db.user_usage uid 0) uid = some (userCount db uid)
      ∧ (userCount db uid < 50 →
          userCount (consume_user_quota db uid).1 uid = userCount db uid + 1
          ∧ (consume_user_quota db uid).2 = (50 : Int) - ((userCount db uid : Int) + 1))
      ∧ (50 ≤ userCount db uid →
          userCount (consume_user_quota db uid).1 uid = userCount db uid
          ∧ (consume_user_quota db uid).2 = -1)) := by
  have ha := consume_anon_spec db sid
  have hu := consume_user_free_spec db uid hfree
  refine ⟨⟨?_, ha.2.1, fun h => ?_⟩, ⟨?_, hu.2.1, fun h => ?_⟩⟩
  · rw [alookup_insertIfAbsent_self]
    cases h : alookup db.anon_usage sid <;> simp [anonCount, h]
  · exact ⟨by rw [(ha.2.2 h).1], (ha.2.2 h).2⟩
  · rw [alookup_insertIfAbsent_self]
    cases h : alookup db.user_usage uid <;> simp [userCount, h]
  · exact ⟨by rw [(hu.2.2 h).1], (hu.2.2 h).2⟩

/-- Witness for C2 at a concrete database. -/
def dbW : DB := { profiles := [(1, Plan.free)], user_usage := [(1, 49)], anon_usage := [(5, 2)] }

theorem c2_quota_consume_witness :
    (alookup dbW.profiles 1 = some Plan.free ∧ anonCount dbW 5 < 3 ∧ userCount dbW 1 < 50)
    ∧ anonCount (consume_anon_quota dbW 5).1 5 = anonCount dbW 5 + 1
    ∧ (consume_anon_quota dbW 5).2 = (3 : Int) - ((anonCount dbW 5 : Int) + 1)
    ∧ userCount (consume_user_quota dbW 1).1 1 = userCount dbW 1 + 1
    ∧ (consume_user_quota dbW 1).2 = (50 : Int) - ((userCount dbW 1 : Int) + 1) := by
  have h := c2_quota_consume dbW 5 1 (by decide)
  exact ⟨⟨by decide, by decide, by decide⟩,
    (h.1.2.1 (by decide)).1, (h.1.2.1 (by decide)).2,
    (h.2.2.1 (by decide)).1, (h.2.2.1 (by decide)).2⟩

/-- C3.  For a free subject with initial count c ≤ 50, the (k+1)-th
consume call returns 50 - (c+k+1) while c+k < 50 and -1 afterwards;
hence successive successful results decrease by exactly 1, and once 0
has been returned every later call returns -1. -/
theorem c3_remaining_monotone (db : DB) (uid : Nat) (c : Nat)
    (hp : alookup db.profiles uid = some Plan.free)
    (hc : userCount db uid = c) (hle : c ≤ 50) :
    (∀ k, nthConsume db uid k = if c + k < 50 then (50 : Int) - ((c : Int) + k + 1) else -1)
    ∧ (∀ k, c + k + 1 < 50 → nthConsume db uid (k + 1) = nthConsume db uid k - 1)
    ∧ (∀ k, nthConsume db uid k = 0 → ∀ j, k < j → nthConsume db uid j = -1) := by
  have hclosed : ∀ k, nthConsume db uid k =
      if c + k < 50 then (50 : Int) - ((c : Int) + k + 1) else -1 := by
    intro k
    obtain ⟨hpk, hck⟩ := stateAfter_free_inv db uid c hp hc hle k
    have hspec := consume_user_free_spec (stateAfter db uid k) uid hpk
    by_cases hlt : c + k < 50
    · have hcnt : userCount (stateAfter db uid k) uid = c + k := by omega
      have h1 := (hspec.2.1 (by omega)).2
      rw [if_pos hlt]
      rw [nthConsume, h1, hcnt]
      push_cast
      ring
    · have hge : 50 ≤ userCount (stateAfter db uid k) uid := by omega
      have h1 := (hspec.2.2 hge).2
      rw [if_neg hlt]
      rw [nthConsume, h1]
  refine ⟨hclosed, fun k hk => ?_, fun k h0 j hj => ?_⟩
  · rw [hclosed k, hclosed (k + 1), if_pos (by omega), if_pos (by omega)]
    push_cast
    ring
  · rw [hclosed k] at h0
    rw [hclosed j]
    by_cases hlt : c + k < 50
    · rw [if_pos hlt] at h0
      have : c + k + 1 = 50 := by omega
      rw [if_neg (by omega)]
    · rw [if_neg hlt] at h0
      exact absurd h0 (by decide)

/-- Witness for C3 at a concrete database: a free user with count 48. -/
def dbW3 : DB := { profiles := [(1, Plan.free)], user_usage := [(1, 48)], anon_usage := [] }

theorem c3_remaining_monotone_witness :
    (alookup dbW3.profiles 1 = some Plan.free ∧ userCount dbW3 1 = 48 ∧ 48 ≤ 50)
    ∧ nthConsume dbW3 1 0 = 1 ∧ nthConsume dbW3 1 1 = 0
    ∧ nthConsume dbW3 1 2 = -1 ∧ nthConsume dbW3 1 3 = -1 := by
  have h := c3_remaining_monotone dbW3 1 48 (by decide) (by decide) (by omega)
  refine ⟨⟨by decide, by decide, by omega⟩, ?_, ?_, ?_, ?_⟩
  · rw [h.1 0]; decide
  · rw [h.1 1]; decide
  · rw [h.1 2]; decide
  · exact h.2.2 1 (by rw [h.1 1]; decide) 3 (by omega)

/-- C8.  A pro subject always receives the sentinel 999999 and no table
is touched: the database state after any number of consume calls is the
original one. -/
theorem c8_pro_exempt (db : DB) (uid : Nat)
    (hp : alookup db.profiles uid = some Plan.pro) :
    consume_user_quota db uid = (db, 999999)
    ∧ (consume_user_quota db uid).1.user_usage = db.user_usage
    ∧ (consume_user_quota db uid).1.anon_usage = db.anon_usage
    ∧ (∀ n, stateAfter db uid n = db ∧ nthConsume db uid n = 999999) := by
  have hone : consume_user_quota db uid = (db, 999999) := by
    simp [consume_user_quota, hp]
  have hiter : ∀ n, stateAfter db uid n = db := by
    intro n
    induction n with
    | zero => rfl
    | succ n ih => simp [stateAfter, ih, hone]
  refine ⟨hone, by rw [hone], by rw [hone], fun n => ⟨hiter n, ?_⟩⟩
  rw [nthConsume, hiter n, hone]

/-- Witness for C8 at a concrete database with a pro profile. -/
def dbWpro : DB := { profiles := [(2, Plan.pro)], user_usage := [(2, 7)], anon_usage := [(9, 1)] }

theorem c8_pro_exempt_witness :
    alookup dbWpro.profiles 2 = some Plan.pro
    ∧ consume_user_quota dbWpro 2 = (dbWpro, 999999)
    ∧ stateAfter dbWpro 2 4 = dbWpro ∧ nthConsume dbWpro 2 4 = 999999 := by
  have h := c8_pro_exempt dbWpro 2 (by decide)
  exact ⟨by decide, h.1, (h.2.2.2 4).1, (h.2.2.2 4).2⟩

/-- C9.  get_user_quota_info is read-only: the database is unchanged (so
every usage record has the same used_count before and after), and the
returned row carries the plan and the remaining count. -/
theorem c9_quota_info_readonly (db : DB) (uid : Nat) :
    (get_user_quota_info db uid).1 = db
    ∧ (∀ s, alookup (get_user_quota_info db uid).1.user_usage s = alookup db.user_usage s)
    ∧ (∀ s, alookup (get_user_quota_info db uid).1.anon_usage s = alookup db.anon_usage s)
    ∧ (get_user_quota_info db uid).2.plan =
        (match alookup db.profiles uid with
         | none => Plan.free
         | some p => p)
    ∧ (get_user_quota_info db uid).2.remaining =
        (if (get_user_quota_info db uid).2.plan = Plan.pro then 999999
         else max 0 ((50 : Int) - (userCount db uid : Int))) := by
  unfold get_user_quota_info
  dsimp only
  split
  · exact ⟨rfl, fun s => rfl, fun s => rfl, rfl, by simp_all⟩
  · exact ⟨rfl, fun s => rfl, fun s => rfl, rfl, by simp_all [userCount]⟩

/-! ### Part 2: the frontend client (src/frontend/App.tsx)

JavaScript strings are modelled as lists of characters; the JS string
operations used by App.tsx (split, startsWith, slice, trim, includes)
are given total structural definitions below. -/

abbrev Str := List Char

def str (s : String) : Str := s.data

/-- JS String.prototype.startsWith: first argument is the pattern. -/
def startsWithL : Str → Str → Bool
  | [], _ => true
  | _ :: _, [] => false
  | a :: pr, b :: sr => if a = b then startsWithL pr sr else false

/-- JS String.prototype.includes: first argument is the pattern. -/
def containsL : Str → Str → Bool
  | pat, [] => startsWithL pat []
  | pat, c :: r => startsWithL pat (c :: r) || containsL pat r

def isWsChar (c : Char) : Bool :=
  if c = (' ') ∨ c = ('\n') ∨ c = ('\t') ∨ c = ('\r') then true else false

/-- JS String.prototype.trim. -/
def trimL (s : Str) : Str :=
  ((s.dropWhile isWsChar).reverse.dropWhile isWsChar).reverse

/-- JS s.split of a newline character, keeping empty pieces. -/
def splitOnNL : Str → List Str
  | [] => [[]]
  | c :: r =>
    if c = ('\n') then [] :: splitOnNL r
    else
      match splitOnNL r with
      | [] => [[c]]
      | l :: ls => (c :: l) :: ls

def lastD {α : Type} : List α → α → α
  | [], d => d
  | [a], _ => a
  | _ :: b :: r, d => lastD (b :: r) d

/-! ### Client data model -/

/-- Paper payload entries pass through the consumer opaquely; only the
title field is retained in the model. -/
structure Paper where
  title : Str
deriving DecidableEq

/-- A chat message.  The source uses string ids from Date.now(); the
model draws ids from a per-state counter (welcome messages have id 0). -/
structure Msg where
  id : Nat
  role : Str
  content : Str
deriving DecidableEq

/-- The progress state {step, status, message}.  Fields are Option Str
because at runtime they are copied from parsed JSON and may be absent. -/
structure Progress where
  step : Option Str
  status : Option Str
  message : Option Str
deriving DecidableEq

/-- Per-conversation stored state, one entry of conversationData. -/
structure ConvData where
  messages : List Msg
  papers : List Paper
  progress : Option Progress
deriving DecidableEq

/-- A conversation list entry (createdAt/updatedAt are not modelled). -/
structure Conversation where
  id : Str
  title : Str
deriving DecidableEq

/-- The React component state of App.tsx that the claims concern:
the conversation list, the active conversation id, the per-conversation
store conversationData, and the visible UI state (messages, papers,
progress) plus quota display state.  nextId feeds fresh message ids. -/
structure ClientState where
  conversations : List Conversation
  currentConversationId : Str
  conversationData : List (Str × ConvData)
  messages : List Msg
  papers : List Paper
  progress : Progress
  quotaRemaining : Option Int
  userPlan : Option Plan
  isLoading : Bool
  nextId : Nat
deriving DecidableEq

def idleProgress : Progress :=
  { step := some [], status := some (str ("idle")), message := none }

def welcomeText : Str :=
  str ("Welcome to ScholarPulse Archive. I provide precise retrieval of high-impact research from elite academic venues. Specify your research parameters to begin.")

def welcomeMsg : Msg := { id := 0, role := str ("assistant"), content := welcomeText }

def emptyConvData : ConvData := { messages := [], papers := [], progress := none }

def initialConvData : ConvData := { messages := [welcomeMsg], papers := [], progress := none }

/-- The ensure-exists pattern `if (!updated[id]) updated[id] = {messages: [], papers: []}`. -/
def ensureEntry (t : List (Str × ConvData)) (id2 : Str) : List (Str × ConvData) :=
  match alookup t id2 with
  | some _ => t
  | none => astore t id2 emptyConvData

def modifyEntry (t : List (Str × ConvData)) (id2 : Str) (f : ConvData → ConvData) :
    List (Str × ConvData) :=
  match alookup t id2 with
  | some d => aset t id2 (f d)
  | none => t

/-! ### Conversation management handlers (App.tsx lines 372-488) -/

/-- The conversation-sync effect of App.tsx lines 155-191: when
currentConversationId changes, the visible messages/papers/progress are
loaded from the stored data of the now-current conversation, and a
missing entry is initialised with the welcome message. -/
def syncFromStored (s : ClientState) : ClientState :=
  match alookup s.conversationData s.currentConversationId with
  | some d =>
    { s with messages := d.messages, papers := d.papers,
             progress := d.progress.getD idleProgress }
  | none =>
    { s with messages := [welcomeMsg], papers := [], progress := idleProgress,
             conversationData := astore s.conversationData s.currentConversationId
               { messages := [welcomeMsg], papers := [], progress := some idleProgress } }

/-- handleNewConversation (App.tsx lines 372-399) followed by the sync
effect triggered by the currentConversationId change. -/
def handleNewConversation (newId : Str) (s : ClientState) : ClientState :=
  syncFromStored { s with
    conversations := { id := newId, title := str ("New Conversation") } :: s.conversations,
    currentConversationId := newId,
    conversationData := astore s.conversationData newId initialConvData }

/-- handleSwitchConversation (App.tsx lines 402-410) followed by the
sync effect (the updatedAt bump is not modelled). -/
def handleSwitchConversation (id2 : Str) (s : ClientState) : ClientState :=
  syncFromStored { s with currentConversationId := id2 }

/-- handleDeleteConversation (App.tsx lines 448-488): a no-op when at
most one conversation is left; otherwise the data entry and the list
entry are removed, and when the deleted conversation was current the
view jumps to the first remaining conversation. -/
def handleDeleteConversation (id2 : Str) (s : ClientState) : ClientState :=
  if s.conversations.length ≤ 1 then s
  else
    let isCurrent := s.currentConversationId = id2
    let data2 := aerase s.conversationData id2
    let filtered := s.conversations.filter (fun c => if c.id = id2 then false else true)
    let s2 := { s with conversationData := data2, conversations := filtered }
    if isCurrent then
      match filtered with
      | [] => s2
      | c :: _ => syncFromStored { s2 with currentConversationId := c.id }
    else s2

def defaultConversation : Conversation :=
  { id := str ("default"), title := str ("New Conversation") }

/-- The confirmed branch of handleClearConversations (App.tsx lines
413-445): the list is replaced by the single default conversation. -/
def handleClearConversations (s : ClientState) : ClientState :=
  syncFromStored { s with
    conversations := [defaultConversation],
    currentConversationId := str ("default"),
    conversationData := [(str ("default"), initialConvData)] }

inductive ConvOp where
  | newConv (id2 : Str)
  | switchConv (id2 : Str)
  | deleteConv (id2 : Str)
  | clearAll
deriving DecidableEq

def applyConvOp (s : ClientState) : ConvOp → ClientState
  | ConvOp.newConv id2 => handleNewConversation id2 s
  | ConvOp.switchConv id2 => handleSwitchConversation id2 s
  | ConvOp.deleteConv id2 => handleDeleteConversation id2 s
  | ConvOp.clearAll => handleClearConversations s

def applyConvOps (s : ClientState) : List ConvOp → ClientState
  | [] => s
  | op :: rest => applyConvOps (applyConvOp s op) rest

def convIds (s : ClientState) : List Str := s.conversations.map Conversation.id

/-- A newConv op uses an id not currently in the list, matching the
source where new ids come from Date.now(). -/
def freshOK (op : ConvOp) (s : ClientState) : Bool :=
  match op with
  | ConvOp.newConv id2 => ! (convIds s).any (fun i => if i = id2 then true else false)
  | _ => true

def opsFresh : List ConvOp → ClientState → Bool
  | [], _ => true
  | op :: rest, s => freshOK op s && opsFresh rest (applyConvOp s op)

/-! ### Lemmas about the conversation handlers -/

theorem syncFromStored_conversations (s : ClientState) :
    (syncFromStored s).conversations = s.conversations := by
  unfold syncFromStored
  split <;> rfl

theorem syncFromStored_currentId (s : ClientState) :
    (syncFromStored s).currentConversationId = s.currentConversationId := by
  unfold syncFromStored
  split <;> rfl

theorem filter_keep_nonempty (l : List Conversation) (x : Str)
    (hlen : 2 ≤ l.length) (hnd : (l.map Conversation.id).Nodup) :
    l.filter (fun c => if c.id = x then false else true) ≠ [] := by
  cases l with
  | nil => simp at hlen
  | cons a t =>
    cases t with
    | nil => simp at hlen
    | cons b r =>
      rw [List.map_cons, List.map_cons, List.nodup_cons] at hnd
      obtain ⟨ha, _⟩ := hnd
      by_cases hax : a.id = x
      · have hbx : ¬ b.id = x := by
          intro hbx
          exact ha (by rw [hax, ← hbx]; exact List.mem_cons_self _ _)
        simp [List.filter_cons, hax, hbx]
      · simp [List.filter_cons, hax]

theorem filter_ids_nodup (l : List Conversation) (x : Str)
    (hnd : (l.map Conversation.id).Nodup) :
    ((l.filter (fun c => if c.id = x then false else true)).map Conversation.id).Nodup :=
  hnd.sublist ((List.filter_sublist l).map Conversation.id)

/-- One conversation op preserves nonemptiness and distinctness of the
conversation list. -/
theorem convGood_step (s : ClientState) (op : ConvOp)
    (hne : s.conversations ≠ []) (hnd : (convIds s).Nodup)
    (hfresh : freshOK op s = true) :
    (applyConvOp s op).conversations ≠ [] ∧ (convIds (applyConvOp s op)).Nodup := by
  cases op with
  | newConv id2 =>
    simp only [freshOK] at hfresh
    have hnotin : id2 ∉ convIds s := by
      intro hmem
      have hc : (convIds s).any (fun i => if i = id2 then true else false) = true :=
        List.any_eq_true.mpr ⟨id2, hmem, by simp⟩
      rw [hc] at hfresh
      simp at hfresh
    constructor
    · simp [applyConvOp, handleNewConversation, syncFromStored_conversations]
    · simp only [applyConvOp, convIds, handleNewConversation]
      rw [syncFromStored_conversations]
      simp only [List.map_cons, List.nodup_cons]
      exact ⟨hnotin, hnd⟩
  | switchConv id2 =>
    constructor
    · simpa [applyConvOp, handleSwitchConversation, syncFromStored_conversations] using hne
    · simpa [applyConvOp, convIds, handleSwitchConversation, syncFromStored_conversations] using hnd
  | deleteConv id2 =>
    simp only [applyConvOp, handleDeleteConversation]
    by_cases hle : s.conversations.length ≤ 1
    · rw [if_pos hle]
      exact ⟨hne, hnd⟩
    · rw [if_neg hle]
      have hlen : 2 ≤ s.conversations.length := by omega
      have hfil := filter_keep_nonempty s.conversations id2 hlen hnd
      have hfnd := filter_ids_nodup s.conversations id2 hnd
      split
      · cases hmatch : s.conversations.filter (fun c => if c.id = id2 then false else true) with
        | nil => exact absurd hmatch hfil
        | cons c t =>
          constructor
          · show (syncFromStored _).conversations ≠ []
            rw [syncFromStored_conversations]
            simp
          · show (convIds (syncFromStored _)).Nodup
            simp only [convIds]
            rw [syncFromStored_conversations]
            rw [hmatch] at hfnd
            exact hfnd
      · exact ⟨hfil, hfnd⟩
  | clearAll =>
    constructor
    · simp [applyConvOp, handleClearConversations, syncFromStored_conversations]
    · simp [applyConvOp, convIds, handleClearConversations, syncFromStored_conversations]

/-- C10.  Deleting with at most one conversation left is a no-op,
clearing yields the single default conversation, and no sequence of
new/switch/delete/clear ops can empty the conversation list. -/
theorem c10_conversation_list_nonempty :
    (∀ (s : ClientState) (id2 : Str), s.conversations.length ≤ 1 →
       handleDeleteConversation id2 s = s)
    ∧ (∀ s : ClientState,
        (handleClearConversations s).conversations = [defaultConversation]
        ∧ (handleClearConversations s).currentConversationId = str ("default"))
    ∧ (∀ (s : ClientState) (ops : List ConvOp),
        s.conversations ≠ [] → (convIds s).Nodup → opsFresh ops s = true →
        (applyConvOps s ops).conversations ≠ []) := by
  refine ⟨?_, ?_, ?_⟩
  · intro s id2 h
    unfold handleDeleteConversation
    rw [if_pos h]
  · intro s
    constructor
    · rw [handleClearConversations, syncFromStored_conversations]
    · rw [handleClearConversations, syncFromStored_currentId]
  · intro s ops
    induction ops generalizing s with
    | nil =>
      intro hne _ _
      simpa [applyConvOps] using hne
    | cons op rest ih =>
      intro hne hnd hfresh
      simp only [opsFresh, Bool.and_eq_true] at hfresh
      obtain ⟨hf1, hf2⟩ := hfresh
      have hstep := convGood_step s op hne hnd hf1
      simp only [applyConvOps]
      exact ih (applyConvOp s op) hstep.1 hstep.2 hf2

/-- Concrete states for witnesses of the client-side claims. -/
def convA : Conversation := { id := str ("A"), title := str ("A") }

def convB : Conversation := { id := str ("B"), title := str ("B") }

def baseState : ClientState :=
  { conversations := [convA, convB],
    currentConversationId := str ("A"),
    conversationData :=
      [(str ("A"), initialConvData), (str ("B"), initialConvData)],
    messages := [welcomeMsg],
    papers := [],
    progress := idleProgress,
    quotaRemaining := none,
    userPlan := none,
    isLoading := false,
    nextId := 1 }

theorem c10_conversation_list_nonempty_witness :
    (baseState.conversations ≠ [] ∧ (convIds baseState).Nodup
      ∧ opsFresh [ConvOp.newConv (str ("C")), ConvOp.deleteConv (str ("A")),
          ConvOp.deleteConv (str ("B")), ConvOp.deleteConv (str ("C")), ConvOp.clearAll]
          baseState = true)
    ∧ (applyConvOps baseState
        [ConvOp.newConv (str ("C")), ConvOp.deleteConv (str ("A")),
         ConvOp.deleteConv (str ("B")), ConvOp.deleteConv (str ("C")), ConvOp.clearAll]).conversations ≠ [] := by
  refine ⟨⟨by decide, by decide, by decide⟩, ?_⟩
  exact c10_conversation_list_nonempty.2.2 baseState _ (by decide) (by decide) (by decide)

/-! ### The SSE stream consumer inside handleSend (App.tsx lines 689-1150)

Within one invocation of handleSend, `searchConversationId` is set to
`currentConversationId` (line 503) and both are `const` bindings of the
same closure for the whole invocation, so every later comparison
`currentConversationId === searchConversationId` compares the captured
value with itself.  The functions below therefore take the bound
conversation id `bound` and the captured value `cur0` separately, with
the top-level runner instantiating cur0 := bound exactly as the source
does.  The live ClientState carries the conversation id the user is
actually viewing, which later renders may have changed. -/

/-- Parsed JSON payload: the fields of SSE payloads that handleSend
reads.  A field is none when absent from the parsed object. -/
structure Json where
  step : Option Str := none
  status : Option Str := none
  message : Option Str := none
  error : Option Str := none
  quota_remaining : Option Int := none
  papers : Option (List Paper) := none
  total_papers_before_filter : Option Nat := none
deriving DecidableEq

/-- JavaScript exceptions that can cross processSSELine or the read
loop: AbortError from cancellation, SyntaxError from JSON.parse (whose
engine message is modelled as containing none of the substrings the
catch blocks test for), and Error(msg) thrown by the error-event
branch. -/
inductive JsErr where
  | abortE
  | parseE
  | errE (msg : Str)
deriving DecidableEq

/-- Instrumentation: the terminal applications the consumer performs. -/
inductive Outcome where
  | resultApplied
  | errorFrameApplied
  | syntheticNoResult
  | catchErrorApplied
  | cancelled
deriving DecidableEq

/-- State of the read loop: the persistent buffer, the terminal-event
registers resultData / hasReceivedResult, the React state, plus two
instrumentation traces (the (event, data) pairs handed to
processSSELine, and the terminal outcomes applied). -/
structure LoopState where
  client : ClientState
  buf : Str
  resultData : Option Json
  hasReceivedResult : Bool
  calls : List (Str × Str)
  outcomes : List Outcome
deriving DecidableEq

/-- JS `a || dflt` on a string-valued field: empty string is falsy. -/
def jsOrStr (a : Option Str) (dflt : Str) : Str :=
  match a with
  | some m => if m = [] then dflt else m
  | none => dflt

def searchMarker : Str := str ("搜索")

def errorProgressVal : Progress :=
  { step := some (str ("error")), status := some (str ("error")),
    message := some (str ("搜索失败")) }

def completedProgressVal : Progress :=
  { step := some (str ("completed")), status := some (str ("completed")),
    message := some (str ("搜索完成")) }

/-- The repeated setConversationData block that ensures the bound entry
exists and appends a message to it; the error paths also clear the
stored papers. -/
def storeMsg (t : List (Str × ConvData)) (bound : Str) (m : Msg) (clearPapers : Bool) :
    List (Str × ConvData) :=
  modifyEntry (ensureEntry t bound) bound
    (fun d => { d with messages := d.messages ++ [m],
                       papers := if clearPapers then [] else d.papers })

/-- The repeated setConversationData block that stores a progress value
on the bound entry. -/
def storeProgress (t : List (Str × ConvData)) (bound : Str) (p : Progress) :
    List (Str × ConvData) :=
  modifyEntry (ensureEntry t bound) bound (fun d => { d with progress := some p })

/-- `if (parsedData.quota_remaining !== undefined && userPlan !== 'pro')
setQuotaRemaining(...)`. -/
def applyQuotaHint (p : Json) (c : ClientState) : ClientState :=
  match p.quota_remaining with
  | some q => if c.userPlan = some Plan.pro then c else { c with quotaRemaining := some q }
  | none => c

/-- Inner catch of processSSELine when JSON.parse failed (App.tsx lines
795-805): the frame is logged and skipped, except that a result frame
still sets hasReceivedResult. -/
def parseFailBranch (e : Str) (st : LoopState) : LoopState :=
  if e = str ("result") then { st with hasReceivedResult := true } else st

/-- The progress branch of processSSELine (App.tsx lines 708-735). -/
def progressBranch (bound cur0 : Str) (p : Json) (st : LoopState) : LoopState :=
  let pd : Progress := { step := p.step, status := p.status, message := p.message }
  let c1 := { st.client with conversationData := storeProgress st.client.conversationData bound pd }
  let c2 := if cur0 = bound then { c1 with progress := pd } else c1
  { st with client := applyQuotaHint p c2 }

/-- The result branch of processSSELine (App.tsx lines 736-752). -/
def resultBranch (p : Json) (st : LoopState) : LoopState :=
  { st with resultData := some p, hasReceivedResult := true,
            client := applyQuotaHint p st.client }

/-- The error branch of processSSELine (App.tsx lines 753-793): the
error message is stored on the bound conversation with papers cleared
and progress set to the error value, the visible UI is updated under
the cur0 = bound test, and then Error(message || error) is thrown; the
inner catch rethrows it only when its message contains the search
marker. -/
def errorBranch (bound cur0 : Str) (p : Json) (st : LoopState) : LoopState × Option JsErr :=
  let content := jsOrStr p.message (jsOrStr p.error (str ("搜索过程中出现错误。")))
  let m : Msg := { id := st.client.nextId, role := str ("assistant"), content := content }
  let data1 := storeMsg st.client.conversationData bound m true
  let data2 := storeProgress data1 bound errorProgressVal
  let c1 := { st.client with conversationData := data2, nextId := st.client.nextId + 1 }
  let c2 :=
    if cur0 = bound then
      { c1 with messages := c1.messages ++ [m], papers := [], progress := errorProgressVal }
    else c1
  let st2 := { st with client := c2, outcomes := st.outcomes ++ [Outcome.errorFrameApplied] }
  let thrownMsg := jsOrStr p.message (jsOrStr p.error [])
  if containsL searchMarker thrownMsg then (st2, some (JsErr.errE thrownMsg)) else (st2, none)

/-- processSSELine (App.tsx lines 698-806). -/
def processSSELine (jparse : Str → Option Json) (bound cur0 : Str) (e d : Str)
    (st : LoopState) : LoopState × Option JsErr :=
  let st1 := { st with calls := st.calls ++ [(e, d)] }
  if e = [] ∨ d = [] then (st1, none)
  else
    match jparse d with
    | none => (parseFailBranch e st1, none)
    | some p =>
      if e = str ("progress") then (progressBranch bound cur0 p st1, none)
      else if e = str ("result") then (resultBranch p st1, none)
      else if e = str ("error") then errorBranch bound cur0 p st1
      else (st1, none)

/-- Output of the per-line scanning loop: final loop state, the local
currentEvent / currentData registers, and a pending exception. -/
structure LinesOut where
  st : LoopState
  ev : Option Str
  dat : Option Str
  thrown : Option JsErr
deriving DecidableEq

/-- JS truthiness of the currentEvent register. -/
def evTruthy (ev : Option Str) : Bool :=
  match ev with
  | some m => if m = [] then false else true
  | none => false

/-- The guarded call `processSSELine(currentEvent, currentData.trim())`
performed when a pending event is flushed: only when currentEvent is
truthy, currentData is non-null and its trim is nonempty. -/
def flushPending (jparse : Str → Option Json) (bound cur0 : Str)
    (ev dat : Option Str) (st : LoopState) : LoopState × Option JsErr :=
  match ev, dat with
  | some e, some dd =>
    if e = [] then (st, none)
    else
      let t := trimL dd
      if t = [] then (st, none)
      else processSSELine jparse bound cur0 e t st
  | _, _ => (st, none)

/-- The per-line for-loop shared by the chunk path (App.tsx lines
881-922) and the done path (lines 819-848): an event line flushes any
pending event and starts a new one, a data line accumulates (joining
multi-line data with a newline), a blank line with a truthy pending
event flushes and resets the registers; a thrown exception propagates
immediately. -/
def processLines (jparse : Str → Option Json) (bound cur0 : Str) :
    List Str → LoopState → Option Str → Option Str → LinesOut
  | [], st, ev, dat => { st := st, ev := ev, dat := dat, thrown := none }
  | line :: rest, st, ev, dat =>
    if startsWithL (str ("event: ")) line then
      let r := flushPending jparse bound cur0 ev dat st
      match r.2 with
      | some err => { st := r.1, ev := ev, dat := dat, thrown := some err }
      | none => processLines jparse bound cur0 rest r.1 (some (trimL (line.drop 7))) none
    else if startsWithL (str ("data: ")) line then
      let dnew :=
        match dat with
        | none => line.drop 6
        | some d0 => d0 ++ ('\n') :: line.drop 6
      processLines jparse bound cur0 rest st ev (some dnew)
    else if trimL line = [] ∧ evTruthy ev = true ∧ dat ≠ none then
      let r := flushPending jparse bound cur0 ev dat st
      match r.2 with
      | some err => { st := r.1, ev := ev, dat := dat, thrown := some err }
      | none => processLines jparse bound cur0 rest r.1 none none
    else processLines jparse bound cur0 rest st ev dat

/-- One iteration of the while-loop body for a received chunk (App.tsx
lines 866-931): the chunk joins the buffer, the buffer is split on
newlines with the last piece kept as the new buffer, the complete lines
are scanned with freshly initialised currentEvent / currentData
registers, and a pending event is flushed early when the buffer is
empty at the end of the chunk. -/
def processChunk (jparse : Str → Option Json) (bound cur0 : Str)
    (st : LoopState) (chunk : Str) : LoopState × Option JsErr :=
  let ls := splitOnNL (st.buf ++ chunk)
  let newBuf := lastD ls []
  let lines := ls.dropLast
  let o := processLines jparse bound cur0 lines { st with buf := newBuf } none none
  match o.thrown with
  | some err => (o.st, some err)
  | none =>
    if evTruthy o.ev = true ∧ o.dat ≠ none ∧ o.st.buf = [] then
      flushPending jparse bound cur0 o.ev o.dat o.st
    else (o.st, none)

/-- The done branch at stream end (App.tsx lines 811-862): the leftover
buffer is re-scanned line by line, and a final pending event is flushed
even without a trailing blank line. -/
def processDone (jparse : Str → Option Json) (bound cur0 : Str)
    (st : LoopState) : LoopState × Option JsErr :=
  if trimL st.buf = [] then (st, none)
  else
    let o := processLines jparse bound cur0 (splitOnNL st.buf) st none none
    match o.thrown with
    | some err => (o.st, some err)
    | none => flushPending jparse bound cur0 o.ev o.dat o.st

/-- The post-stream result check and application (App.tsx lines
934-1072): with neither resultData nor hasReceivedResult the synthetic
no-result error is applied and the run returns; with
hasReceivedResult but no parseable payload an empty result object is
fabricated; then the assistant message and paper list are stored on the
bound conversation and the UI is updated under the cur0 = bound test,
followed by the completed progress value. -/
def postStream (bound cur0 : Str) (st : LoopState) : LoopState :=
  if st.resultData = none ∧ st.hasReceivedResult = false then
    let m : Msg := { id := st.client.nextId, role := str ("assistant"),
                     content := str ("搜索过程中出现错误，未收到搜索结果。") }
    let data1 := storeMsg st.client.conversationData bound m true
    let c1 := { st.client with conversationData := data1, nextId := st.client.nextId + 1 }
    let c2 := if cur0 = bound then { c1 with messages := c1.messages ++ [m], papers := [] } else c1
    { st with client := c2, outcomes := st.outcomes ++ [Outcome.syntheticNoResult] }
  else
    let rd : Json :=
      match st.resultData with
      | some j => j
      | none => { total_papers_before_filter := some 0, papers := some [],
                  message := some (str ("搜索结果解析失败")) }
    let papersList := rd.papers.getD []
    let totalBefore := rd.total_papers_before_filter.getD 0
    let content :=
      if totalBefore = 0 then str ("没有找到相关论文。")
      else if papersList.length = 0 then str ("检索结果过滤后没有找到相关的论文。")
      else str ("以下是我帮你找到的论文：")
    let am : Msg := { id := st.client.nextId, role := str ("assistant"), content := content }
    let data1 := modifyEntry (ensureEntry st.client.conversationData bound) bound
      (fun d =>
        let hasA := d.messages.any
          (fun mg => if mg.role = str ("assistant") ∧ mg.id = am.id then true else false)
        { d with messages := if hasA then d.messages else d.messages ++ [am],
                 papers := papersList })
    let c1 := { st.client with conversationData := data1, nextId := st.client.nextId + 1 }
    let c2 :=
      if cur0 = bound then
        { c1 with
          messages :=
            if c1.messages.any (fun mg => if mg.id = am.id then true else false)
            then c1.messages else c1.messages ++ [am],
          papers := papersList }
      else c1
    let data3 := storeProgress c2.conversationData bound completedProgressVal
    let c3 := { c2 with conversationData := data3 }
    let c4 := if cur0 = bound then { c3 with progress := completedProgressVal } else c3
    { st with client := c4, outcomes := st.outcomes ++ [Outcome.resultApplied] }

def timeoutText : Str :=
  str ("Error: Request timeout. The search is taking longer than expected. Please try again with a simpler query or fewer venues.")

def genericErrorText : Str :=
  str ("Error: Retrieval grid unresponsive. Please verify your connection to the academic network.")

/-- The message/papers/progress application performed by the outer
catch (App.tsx lines 1093-1124). -/
def applyCatchError (bound cur0 : Str) (content : Str) (st : LoopState) : LoopState :=
  let m : Msg := { id := st.client.nextId, role := str ("assistant"), content := content }
  let data1 := storeMsg st.client.conversationData bound m true
  let data2 := storeProgress data1 bound errorProgressVal
  let c1 := { st.client with conversationData := data2, nextId := st.client.nextId + 1 }
  let c2 :=
    if cur0 = bound then
      { c1 with messages := c1.messages ++ [m], papers := [], progress := errorProgressVal }
    else c1
  { st with client := c2, outcomes := st.outcomes ++ [Outcome.catchErrorApplied] }

/-- The non-abort part of the outer catch, keyed by e.message (App.tsx
lines 1080-1124). -/
def handleCatchMsg (bound cur0 : Str) (emsg : Str) (st : LoopState) : LoopState :=
  if containsL (str ("aborted")) emsg || containsL (str ("timeout")) emsg then
    applyCatchError bound cur0 timeoutText st
  else if containsL (str ("未收到搜索结果")) emsg then st
  else applyCatchError bound cur0 genericErrorText st

/-- The outer catch of handleSend (App.tsx lines 1073-1124): AbortError
returns silently; any other exception is keyed by its message. -/
def handleCatch (bound cur0 : Str) (err : JsErr) (st : LoopState) : LoopState :=
  match err with
  | JsErr.abortE => { st with outcomes := st.outcomes ++ [Outcome.cancelled] }
  | JsErr.parseE => handleCatchMsg bound cur0 (str ("Unexpected token")) st
  | JsErr.errE m => handleCatchMsg bound cur0 m st

/-- Inputs to the read loop: a chunk delivered by a read, or a user
action that React processes between two reads. -/
inductive SendItem where
  | chunk (s2 : Str)
  | userAct (op : ConvOp)
deriving DecidableEq

/-- The loop state at the start of stream consumption: empty buffer,
no terminal registers, empty traces (App.tsx lines 690-696). -/
def initLoop (c : ClientState) : LoopState :=
  { client := c, buf := [], resultData := none, hasReceivedResult := false,
    calls := [], outcomes := [] }

/-- The read loop of handleSend over its inputs; an exception thrown
while processing a chunk leaves the loop immediately. -/
def runItems (jparse : Str → Option Json) (bound cur0 : Str) :
    List SendItem → LoopState → LoopState × Option JsErr
  | [], st => (st, none)
  | SendItem.chunk c :: rest, st =>
    let r := processChunk jparse bound cur0 st c
    match r.2 with
    | some err => (r.1, some err)
    | none => runItems jparse bound cur0 rest r.1
  | SendItem.userAct op :: rest, st =>
    runItems jparse bound cur0 rest { st with client := applyConvOp st.client op }

/-- The submission prelude of handleSend (App.tsx lines 502-554): the
user message is appended to the bound conversation, the UI is updated
under the cur0 = bound test, loading starts, the visible papers and
progress are reset under the same test, and the stored progress of the
bound conversation is reset (the title update of lines 532-536 is not
modelled). -/
def handleSendStart (bound cur0 : Str) (inputQ : Str) (c : ClientState) : ClientState :=
  let um : Msg := { id := c.nextId, role := str ("user"), content := inputQ }
  let data1 := storeMsg c.conversationData bound um false
  let c1 := { c with conversationData := data1, nextId := c.nextId + 1 }
  let c2 := if cur0 = bound then { c1 with messages := c1.messages ++ [um] } else c1
  let c3 := { c2 with isLoading := true }
  let c4 := if cur0 = bound then { c3 with papers := [], progress := idleProgress } else c3
  { c4 with conversationData := storeProgress c4.conversationData bound idleProgress }

/-- One full run of handleSend from submission through termination
(App.tsx lines 499-1150).  cur0 is the currentConversationId captured
at entry, and searchConversationId (bound) is set to it, so both stand
for the same constant throughout the run, as in the source closure.
aborted = true means the read following the last item raised
AbortError.  The 2-second delayed progress reset of the finally block
is a timer and is not modelled. -/
def handleSendRun (jparse : Str → Option Json) (c0 : ClientState) (inputQ : Str)
    (items : List SendItem) (aborted : Bool) : LoopState :=
  let cur0 := c0.currentConversationId
  let bound := cur0
  let c1 := handleSendStart bound cur0 inputQ c0
  let st0 : LoopState := initLoop c1
  let r := runItems jparse bound cur0 items st0
  let st3 :=
    match r.2 with
    | some err => handleCatch bound cur0 err r.1
    | none =>
      if aborted then handleCatch bound cur0 JsErr.abortE r.1
      else
        let rd := processDone jparse bound cur0 r.1
        match rd.2 with
        | some err => handleCatch bound cur0 err rd.1
        | none => postStream bound cur0 rd.1
  { st3 with client := { st3.client with isLoading := false } }

/-- handleSend as seen from the component state (the guard of line 500
returns unchanged on empty input or while already loading; the venue
check is not modelled). -/
def handleSend (jparse : Str → Option Json) (c0 : ClientState) (inputQ : Str)
    (items : List SendItem) (aborted : Bool) : ClientState :=
  if trimL inputQ = [] ∨ c0.isLoading = true then c0
  else (handleSendRun jparse c0 inputQ items aborted).client

/-- Frame-level run of the consumer: the wire layer hands each complete
(event, data) pair to processSSELine (the byte-level scanning is
exercised separately); the run stops at the first uncaught exception. -/
def runFrames (jparse : Str → Option Json) (bound cur0 : Str) :
    List (Str × Str) → LoopState → LoopState × Option JsErr
  | [], st => (st, none)
  | f :: rest, st =>
    let r := processSSELine jparse bound cur0 f.1 f.2 st
    match r.2 with
    | some err => (r.1, some err)
    | none => runFrames jparse bound cur0 rest r.1

/-- The consumer from frame delivery to termination: frames are handed
to processSSELine in order; afterwards either the AbortError of a
cancelled request is caught, or the post-stream check of lines 934-1072
runs; an exception rethrown from an error frame reaches the outer
catch. -/
def consumeFrames (jparse : Str → Option Json) (c0 : ClientState)
    (frames : List (Str × Str)) (aborted : Bool) : LoopState :=
  let cur0 := c0.currentConversationId
  let bound := cur0
  let st0 : LoopState := initLoop c0
  let r := runFrames jparse bound cur0 frames st0
  match r.2 with
  | some err => handleCatch bound cur0 err r.1
  | none =>
    if aborted then handleCatch bound cur0 JsErr.abortE r.1
    else postStream bound cur0 r.1

/-! ### Concrete inputs for counterexamples and witnesses -/

def progressPayload : Str := str ("\x7b\"step\":\"search\",\"status\":\"running\"\x7d")

def paperP1 : Paper := { title := str ("P1") }

def resultPayload : Str :=
  str ("\x7b\"total_papers_before_filter\":1,\"papers\":[\x7b\"title\":\"P1\"\x7d]\x7d")

/-- JSON.parse restricted to the payloads the concrete runs use: the
two well-formed payloads parse to the corresponding objects and
anything else fails to parse. -/
def jparseDemo : Str → Option Json := fun d =>
  if d = progressPayload then
    some { step := some (str ("search")), status := some (str ("running")) }
  else if d = resultPayload then
    some { total_papers_before_filter := some 1, papers := some [paperP1] }
  else none

def progressFrame : Str := str ("event: progress\ndata: ") ++ progressPayload ++ str ("\n\n")

def resultFrame : Str := str ("event: result\ndata: ") ++ resultPayload ++ str ("\n\n")

/-! ### C1, C4, C7: behaviour of the consumer at concrete inputs -/

/-- C1 (code bug).  Search submitted on conversation A of baseState;
the user switches the view to B before the frames arrive; then a
progress frame and a result frame are consumed.  The mutations are
stored under A as the claim says, but the visible UI is mutated as
well: the final state displays B while the visible paper list and
progress carry A's result, because the guard
`currentConversationId === searchConversationId` inside handleSend
compares the captured submission-time value with itself.  B's stored
papers stay empty, so what is displayed is not B's state. -/
theorem c1_binding_ui_leak :
    (handleSend jparseDemo baseState (str ("q"))
        [SendItem.userAct (ConvOp.switchConv (str ("B"))),
         SendItem.chunk progressFrame,
         SendItem.chunk resultFrame] false).currentConversationId = str ("B")
    ∧ (alookup (handleSend jparseDemo baseState (str ("q"))
        [SendItem.userAct (ConvOp.switchConv (str ("B"))),
         SendItem.chunk progressFrame,
         SendItem.chunk resultFrame] false).conversationData (str ("A"))).map ConvData.papers
        = some [paperP1]
    ∧ (alookup (handleSend jparseDemo baseState (str ("q"))
        [SendItem.userAct (ConvOp.switchConv (str ("B"))),
         SendItem.chunk progressFrame,
         SendItem.chunk resultFrame] false).conversationData (str ("B"))).map ConvData.papers
        = some []
    ∧ (handleSend jparseDemo baseState (str ("q"))
        [SendItem.userAct (ConvOp.switchConv (str ("B"))),
         SendItem.chunk progressFrame,
         SendItem.chunk resultFrame] false).papers = [paperP1]
    ∧ (handleSend jparseDemo baseState (str ("q"))
        [SendItem.userAct (ConvOp.switchConv (str ("B"))),
         SendItem.chunk progressFrame,
         SendItem.chunk resultFrame] false).progress = completedProgressVal := by
  refine ⟨by decide, by decide, by decide, by decide, by decide⟩

/-- C4 (code bug).  The same well-formed frame byte sequence delivered
in one chunk produces the progress event, but delivered split at the
newline after the event line it produces no events at all: the
currentEvent / currentData registers are locals of each chunk
iteration, so the pending event name dies at the chunk boundary. -/
theorem c4_split_frames_differ :
    str ("event: progress\n") ++ (str ("data: ") ++ progressPayload ++ str ("\n\n"))
      = progressFrame
    ∧ (handleSendRun jparseDemo baseState (str ("q"))
        [SendItem.chunk progressFrame] false).calls
        = [(str ("progress"), progressPayload)]
    ∧ (handleSendRun jparseDemo baseState (str ("q"))
        [SendItem.chunk (str ("event: progress\n")),
         SendItem.chunk (str ("data: ") ++ progressPayload ++ str ("\n\n"))] false).calls
        = [] := by
  refine ⟨by decide, by decide, by decide⟩

/-- C7 (code bug).  Search submitted on conversation A of baseState;
the user switches to B and then deletes A while the request is in
flight; the result frame then arrives.  The terminal result is not
discarded: the ensure-exists pattern of the result application
re-creates conversationData["A"] and stores the paper list there, even
though A has been removed from the conversation list. -/
theorem c7_deleted_conversation_resurrected :
    (handleSend jparseDemo baseState (str ("q"))
        [SendItem.userAct (ConvOp.switchConv (str ("B"))),
         SendItem.userAct (ConvOp.deleteConv (str ("A"))),
         SendItem.chunk resultFrame] false).conversations = [convB]
    ∧ (alookup (handleSend jparseDemo baseState (str ("q"))
        [SendItem.userAct (ConvOp.switchConv (str ("B"))),
         SendItem.userAct (ConvOp.deleteConv (str ("A"))),
         SendItem.chunk resultFrame] false).conversationData (str ("A"))).map ConvData.papers
        = some [paperP1] := by
  refine ⟨by decide, by decide⟩

/-! ### Lemmas about the consumer used by C5 and C6 -/

theorem postStream_noTerminal (bound cur0 : Str) (st : LoopState)
    (h1 : st.resultData = none) (h2 : st.hasReceivedResult = false) :
    (postStream bound cur0 st).outcomes = st.outcomes ++ [Outcome.syntheticNoResult] := by
  unfold postStream
  rw [if_pos ⟨h1, h2⟩]

theorem postStream_gotTerminal (bound cur0 : Str) (st : LoopState)
    (h : st.hasReceivedResult = true) :
    (postStream bound cur0 st).outcomes = st.outcomes ++ [Outcome.resultApplied] := by
  unfold postStream
  rw [if_neg (by simp [h])]

theorem postStream_keeps_flag (bound cur0 : Str) (st : LoopState) :
    (postStream bound cur0 st).hasReceivedResult = st.hasReceivedResult := by
  unfold postStream
  split <;> rfl

/-- C6.  A frame whose payload fails JSON.parse raises no exception out
of processSSELine: the client state, the outcomes and resultData are
untouched (the frame is skipped) and processing of subsequent frames
continues; the single exception is that a result frame still sets
hasReceivedResult, so the post-stream check applies a result instead of
the synthetic no-result error. -/
theorem c6_garbled_frame_skipped (jparse : Str → Option Json) (bound cur0 e d : Str)
    (st : LoopState) (hp : jparse d = none) :
    (processSSELine jparse bound cur0 e d st).2 = none
    ∧ (processSSELine jparse bound cur0 e d st).1.client = st.client
    ∧ (processSSELine jparse bound cur0 e d st).1.outcomes = st.outcomes
    ∧ (processSSELine jparse bound cur0 e d st).1.resultData = st.resultData
    ∧ (processSSELine jparse bound cur0 e d st).1.hasReceivedResult
        = (st.hasReceivedResult || (if e = str ("result") ∧ d ≠ [] then true else false))
    ∧ (∀ rest, runFrames jparse bound cur0 ((e, d) :: rest) st
        = runFrames jparse bound cur0 rest (processSSELine jparse bound cur0 e d st).1)
    ∧ (e = str ("result") → d ≠ [] →
        (processSSELine jparse bound cur0 e d st).1.hasReceivedResult = true
        ∧ (postStream bound cur0 (processSSELine jparse bound cur0 e d st).1).outcomes
            = st.outcomes ++ [Outcome.resultApplied]) := by
  have hmain : (processSSELine jparse bound cur0 e d st).2 = none
      ∧ (processSSELine jparse bound cur0 e d st).1.client = st.client
      ∧ (processSSELine jparse bound cur0 e d st).1.outcomes = st.outcomes
      ∧ (processSSELine jparse bound cur0 e d st).1.resultData = st.resultData
      ∧ (processSSELine jparse bound cur0 e d st).1.hasReceivedResult
          = (st.hasReceivedResult || (if e = str ("result") ∧ d ≠ [] then true else false)) := by
    by_cases hc : e = [] ∨ d = []
    · have hne : ¬ (e = str ("result") ∧ d ≠ []) := by
        rcases hc with hc | hc
        · intro hx
          rw [hc] at hx
          exact absurd hx.1 (by decide)
        · intro hx
          exact hx.2 hc
      simp [processSSELine, hc, hne]
    · by_cases he : e = str ("result")
      · have hd : d ≠ [] := by
          intro hd
          exact hc (Or.inr hd)
        have hres : ¬ ((str ("result") : Str) = []) := by decide
        simp [processSSELine, hc, hp, parseFailBranch, he, hd, hres]
      · have hne : ¬ (e = str ("result") ∧ d ≠ []) := fun hx => he hx.1
        simp [processSSELine, hc, hp, parseFailBranch, he, hne]
  refine ⟨hmain.1, hmain.2.1, hmain.2.2.1, hmain.2.2.2.1, hmain.2.2.2.2, ?_, ?_⟩
  · intro rest
    simp only [runFrames]
    rw [hmain.1]
  · intro he hd
    have hflag : (processSSELine jparse bound cur0 e d st).1.hasReceivedResult = true := by
      rw [hmain.2.2.2.2]
      simp [he, hd]
    exact ⟨hflag, by rw [postStream_gotTerminal bound cur0 _ hflag, hmain.2.2.1]⟩

/-- Witness state for the consumer-side witnesses. -/
def stW : LoopState :=
  { client := baseState, buf := [], resultData := none, hasReceivedResult := false,
    calls := [], outcomes := [] }

theorem c6_garbled_frame_skipped_witness :
    jparseDemo (str ("not json")) = none
    ∧ (processSSELine jparseDemo (str ("A")) (str ("A")) (str ("result")) (str ("not json")) stW).2
        = none
    ∧ (processSSELine jparseDemo (str ("A")) (str ("A")) (str ("result")) (str ("not json")) stW).1.client
        = stW.client
    ∧ (processSSELine jparseDemo (str ("A")) (str ("A")) (str ("result")) (str ("not json")) stW).1.hasReceivedResult
        = true
    ∧ (postStream (str ("A")) (str ("A"))
        (processSSELine jparseDemo (str ("A")) (str ("A")) (str ("result")) (str ("not json")) stW).1).outcomes
        = stW.outcomes ++ [Outcome.resultApplied] := by
  have h := c6_garbled_frame_skipped jparseDemo (str ("A")) (str ("A"))
    (str ("result")) (str ("not json")) stW (by decide)
  exact ⟨by decide, h.1, h.2.1,
    (h.2.2.2.2.2.2 rfl (by decide)).1, (h.2.2.2.2.2.2 rfl (by decide)).2⟩

/-! ### C5: terminal-outcome accounting -/

def isTerminalEv (e : Str) : Bool :=
  if e = str ("result") ∨ e = str ("error") then true else false

/-- Number of terminal (result or error) frames in a delivered frame
sequence. -/
def terminalCount (frames : List (Str × Str)) : Nat :=
  (frames.filter (fun f => isTerminalEv f.1)).length

def outcomeIsError : Outcome → Bool
  | Outcome.errorFrameApplied => true
  | Outcome.syntheticNoResult => true
  | Outcome.catchErrorApplied => true
  | Outcome.resultApplied => false
  | Outcome.cancelled => false

/-- A result was applied during the run. -/
def resultAppliedB (st : LoopState) : Bool :=
  st.outcomes.any (fun o => if o = Outcome.resultApplied then true else false)

/-- Some error message (error frame, synthetic no-result, or catch
handler) was applied during the run. -/
def errorAppliedB (st : LoopState) : Bool := st.outcomes.any outcomeIsError

/-- The run ended in the silent cancellation return. -/
def cancelledB (st : LoopState) : Bool :=
  st.outcomes.any (fun o => if o = Outcome.cancelled then true else false)

theorem terminalCount_cons (e d : Str) (rest : List (Str × Str)) :
    terminalCount ((e, d) :: rest)
      = (if isTerminalEv e = true then 1 else 0) + terminalCount rest := by
  unfold terminalCount
  rw [List.filter_cons]
  by_cases h : isTerminalEv e = true <;> simp [h, Nat.add_comm]

theorem terminalCount_zero_all (frames : List (Str × Str))
    (h : terminalCount frames = 0) :
    ∀ f ∈ frames, f.1 ≠ str ("result") ∧ f.1 ≠ str ("error") := by
  intro f hf
  have hnil := List.length_eq_zero.mp h
  have hall := List.filter_eq_nil_iff.mp hnil f hf
  simp only [isTerminalEv] at hall
  by_cases h1 : f.1 = str ("result") ∨ f.1 = str ("error")
  · simp [h1] at hall
  · exact ⟨fun hx => h1 (Or.inl hx), fun hx => h1 (Or.inr hx)⟩

/-- processSSELine on a non-terminal event: no exception, and the
outcome trace and terminal registers are untouched. -/
theorem processSSELine_nonterminal (jparse : Str → Option Json) (bound cur0 e d : Str)
    (st : LoopState) (h1 : e ≠ str ("result")) (h2 : e ≠ str ("error")) :
    (processSSELine jparse bound cur0 e d st).2 = none
    ∧ (processSSELine jparse bound cur0 e d st).1.outcomes = st.outcomes
    ∧ (processSSELine jparse bound cur0 e d st).1.resultData = st.resultData
    ∧ (processSSELine jparse bound cur0 e d st).1.hasReceivedResult = st.hasReceivedResult := by
  by_cases hc : e = [] ∨ d = []
  · simp [processSSELine, hc]
  · cases hj : jparse d with
    | none => simp [processSSELine, hc, hj, parseFailBranch, h1]
    | some p =>
      by_cases hprog : e = str ("progress")
      · subst hprog
        simp [processSSELine, hc, hj, progressBranch]
      · simp [processSSELine, hc, hj, hprog, h1, h2]

/-- processSSELine on a result event: no exception, the outcome trace
is untouched, and either hasReceivedResult is set or (empty data) the
state is unchanged. -/
theorem processSSELine_result (jparse : Str → Option Json) (bound cur0 d : Str)
    (st : LoopState) :
    (processSSELine jparse bound cur0 (str ("result")) d st).2 = none
    ∧ (processSSELine jparse bound cur0 (str ("result")) d st).1.outcomes = st.outcomes
    ∧ ((processSSELine jparse bound cur0 (str ("result")) d st).1.hasReceivedResult = true
       ∨ ((processSSELine jparse bound cur0 (str ("result")) d st).1.resultData = st.resultData
          ∧ (processSSELine jparse bound cur0 (str ("result")) d st).1.hasReceivedResult
              = st.hasReceivedResult)) := by
  by_cases hd : d = []
  · have hc : (str ("result") : Str) = [] ∨ d = [] := Or.inr hd
    exact ⟨by simp [processSSELine, hc], by simp [processSSELine, hc],
      Or.inr ⟨by simp [processSSELine, hc], by simp [processSSELine, hc]⟩⟩
  · have hc : ¬ ((str ("result") : Str) = [] ∨ d = []) := by
      rintro (h | h)
      · exact absurd h (by decide)
      · exact hd h
    cases hj : jparse d with
    | none =>
      have hres : (str ("result") : Str) = str ("result") := rfl
      exact ⟨by simp [processSSELine, hc, hj, parseFailBranch],
        by simp [processSSELine, hc, hj, parseFailBranch],
        Or.inl (by simp [processSSELine, hc, hj, parseFailBranch])⟩
    | some p =>
      have hnp : ¬ ((str ("result") : Str) = str ("progress")) := by decide
      exact ⟨by simp [processSSELine, hc, hj, hnp, resultBranch],
        by simp [processSSELine, hc, hj, hnp, resultBranch],
        Or.inl (by simp [processSSELine, hc, hj, hnp, resultBranch])⟩

/-- processSSELine on an error event: the terminal registers are
untouched; either the frame is skipped (outcome trace unchanged, no
exception) or the error is applied once, in which case the inner catch
either swallows the thrown Error or rethrows it. -/
theorem processSSELine_error (jparse : Str → Option Json) (bound cur0 d : Str)
    (st : LoopState) :
    ((processSSELine jparse bound cur0 (str ("error")) d st).1.resultData = st.resultData
      ∧ (processSSELine jparse bound cur0 (str ("error")) d st).1.hasReceivedResult
          = st.hasReceivedResult)
    ∧ (((processSSELine jparse bound cur0 (str ("error")) d st).2 = none
        ∧ (processSSELine jparse bound cur0 (str ("error")) d st).1.outcomes = st.outcomes)
      ∨ ((processSSELine jparse bound cur0 (str ("error")) d st).1.outcomes
            = st.outcomes ++ [Outcome.errorFrameApplied]
        ∧ ((processSSELine jparse bound cur0 (str ("error")) d st).2 = none
           ∨ ∃ m, (processSSELine jparse bound cur0 (str ("error")) d st).2
               = some (JsErr.errE m)))) := by
  by_cases hd : d = []
  · have hc : (str ("error") : Str) = [] ∨ d = [] := Or.inr hd
    exact ⟨⟨by simp [processSSELine, hc], by simp [processSSELine, hc]⟩,
      Or.inl ⟨by simp [processSSELine, hc], by simp [processSSELine, hc]⟩⟩
  · have hc : ¬ ((str ("error") : Str) = [] ∨ d = []) := by
      rintro (h | h)
      · exact absurd h (by decide)
      · exact hd h
    cases hj : jparse d with
    | none =>
      have hnr : ¬ ((str ("error") : Str) = str ("result")) := by decide
      exact ⟨⟨by simp [processSSELine, hc, hj, parseFailBranch, hnr],
          by simp [processSSELine, hc, hj, parseFailBranch, hnr]⟩,
        Or.inl ⟨by simp [processSSELine, hc, hj, parseFailBranch, hnr],
          by simp [processSSELine, hc, hj, parseFailBranch, hnr]⟩⟩
    | some p =>
      have hnp : ¬ ((str ("error") : Str) = str ("progress")) := by decide
      have hnr : ¬ ((str ("error") : Str) = str ("result")) := by decide
      by_cases hm : containsL searchMarker (jsOrStr p.message (jsOrStr p.error [])) = true
      · refine ⟨⟨?_, ?_⟩, Or.inr ⟨?_, Or.inr ⟨jsOrStr p.message (jsOrStr p.error []), ?_⟩⟩⟩ <;>
          simp [processSSELine, hc, hj, hnp, hnr, errorBranch, hm]
      · refine ⟨⟨?_, ?_⟩, Or.inr ⟨?_, Or.inl ?_⟩⟩ <;>
          simp [processSSELine, hc, hj, hnp, hnr, errorBranch, hm]

theorem runFrames_cons_eq (jparse : Str → Option Json) (bound cur0 e d : Str)
    (rest : List (Str × Str)) (st : LoopState) :
    runFrames jparse bound cur0 ((e, d) :: rest) st
      = (match (processSSELine jparse bound cur0 e d st).2 with
         | some err => ((processSSELine jparse bound cur0 e d st).1, some err)
         | none => runFrames jparse bound cur0 rest (processSSELine jparse bound cur0 e d st).1) :=
  rfl

theorem runFrames_cons_none (jparse : Str → Option Json) (bound cur0 e d : Str)
    (rest : List (Str × Str)) (st : LoopState)
    (h : (processSSELine jparse bound cur0 e d st).2 = none) :
    runFrames jparse bound cur0 ((e, d) :: rest) st
      = runFrames jparse bound cur0 rest (processSSELine jparse bound cur0 e d st).1 := by
  rw [runFrames_cons_eq, h]

theorem runFrames_cons_some (jparse : Str → Option Json) (bound cur0 e d : Str)
    (rest : List (Str × Str)) (st : LoopState) (err : JsErr)
    (h : (processSSELine jparse bound cur0 e d st).2 = some err) :
    runFrames jparse bound cur0 ((e, d) :: rest) st
      = ((processSSELine jparse bound cur0 e d st).1, some err) := by
  rw [runFrames_cons_eq, h]

/-- Running only non-terminal frames throws nothing and leaves the
outcome trace and terminal registers untouched. -/
theorem runFrames_nonterminal (jparse : Str → Option Json) (bound cur0 : Str) :
    ∀ (frames : List (Str × Str)) (st : LoopState),
      (∀ f ∈ frames, f.1 ≠ str ("result") ∧ f.1 ≠ str ("error")) →
      (runFrames jparse bound cur0 frames st).2 = none
      ∧ (runFrames jparse bound cur0 frames st).1.outcomes = st.outcomes
      ∧ (runFrames jparse bound cur0 frames st).1.resultData = st.resultData
      ∧ (runFrames jparse bound cur0 frames st).1.hasReceivedResult = st.hasReceivedResult
  | [], st, _ => ⟨rfl, rfl, rfl, rfl⟩
  | (e, d) :: rest, st, h => by
    have hf := h (e, d) (List.mem_cons_self _ _)
    have hstep := processSSELine_nonterminal jparse bound cur0 e d st hf.1 hf.2
    rw [runFrames_cons_none jparse bound cur0 e d rest st hstep.1]
    have ih := runFrames_nonterminal jparse bound cur0 rest
      (processSSELine jparse bound cur0 e d st).1
      (fun f hmem => h f (List.mem_cons_of_mem _ hmem))
    exact ⟨ih.1, ih.2.1.trans hstep.2.1, ih.2.2.1.trans hstep.2.2.1,
      ih.2.2.2.trans hstep.2.2.2⟩

/-- Running a frame list with at most one terminal frame from a state
with clean terminal registers ends in one of four shapes: nothing
terminal seen; a result frame seen (hasReceivedResult set, no outcome
yet); an error frame applied and swallowed; or an error frame applied
and rethrown. -/
theorem runFrames_char (jparse : Str → Option Json) (bound cur0 : Str) :
    ∀ (frames : List (Str × Str)) (st : LoopState),
      terminalCount frames ≤ 1 →
      st.resultData = none → st.hasReceivedResult = false →
      ((runFrames jparse bound cur0 frames st).2 = none
        ∧ (runFrames jparse bound cur0 frames st).1.outcomes = st.outcomes
        ∧ (runFrames jparse bound cur0 frames st).1.resultData = none
        ∧ (runFrames jparse bound cur0 frames st).1.hasReceivedResult = false)
      ∨ ((runFrames jparse bound cur0 frames st).2 = none
        ∧ (runFrames jparse bound cur0 frames st).1.outcomes = st.outcomes
        ∧ (runFrames jparse bound cur0 frames st).1.hasReceivedResult = true)
      ∨ ((runFrames jparse bound cur0 frames st).2 = none
        ∧ (runFrames jparse bound cur0 frames st).1.outcomes
            = st.outcomes ++ [Outcome.errorFrameApplied]
        ∧ (runFrames jparse bound cur0 frames st).1.resultData = none
        ∧ (runFrames jparse bound cur0 frames st).1.hasReceivedResult = false)
      ∨ (∃ m, (runFrames jparse bound cur0 frames st).2 = some (JsErr.errE m)
        ∧ (runFrames jparse bound cur0 frames st).1.outcomes
            = st.outcomes ++ [Outcome.errorFrameApplied]
        ∧ (runFrames jparse bound cur0 frames st).1.resultData = none
        ∧ (runFrames jparse bound cur0 frames st).1.hasReceivedResult = false) := by
  intro frames
  induction frames with
  | nil =>
    intro st _ hres hflag
    exact Or.inl ⟨rfl, rfl, hres, hflag⟩
  | cons f rest ih =>
    obtain ⟨e, d⟩ := f
    intro st hterm hres hflag
    by_cases hte : isTerminalEv e = true
    · have hterm0 : terminalCount rest = 0 := by
        rw [terminalCount_cons, if_pos hte] at hterm
        omega
      have hrest := terminalCount_zero_all rest hterm0
      have hor : e = str ("result") ∨ e = str ("error") := by
        simp only [isTerminalEv] at hte
        by_cases hor : e = str ("result") ∨ e = str ("error")
        · exact hor
        · simp [hor] at hte
      rcases hor with he | he
      · subst he
        have hstep := processSSELine_result jparse bound cur0 d st
        rw [runFrames_cons_none jparse bound cur0 _ d rest st hstep.1]
        have hnt := runFrames_nonterminal jparse bound cur0 rest
          (processSSELine jparse bound cur0 (str ("result")) d st).1 hrest
        rcases hstep.2.2 with hflag2 | hunch
        · exact Or.inr (Or.inl ⟨hnt.1, hnt.2.1.trans hstep.2.1, hnt.2.2.2.trans hflag2⟩)
        · exact Or.inl ⟨hnt.1, hnt.2.1.trans hstep.2.1,
            hnt.2.2.1.trans (hunch.1.trans hres), hnt.2.2.2.trans (hunch.2.trans hflag)⟩
      · subst he
        have hstep := processSSELine_error jparse bound cur0 d st
        rcases hstep.2 with ⟨hth, hout⟩ | ⟨hout, hth⟩
        · rw [runFrames_cons_none jparse bound cur0 _ d rest st hth]
          have hnt := runFrames_nonterminal jparse bound cur0 rest
            (processSSELine jparse bound cur0 (str ("error")) d st).1 hrest
          exact Or.inl ⟨hnt.1, hnt.2.1.trans hout,
            hnt.2.2.1.trans (hstep.1.1.trans hres), hnt.2.2.2.trans (hstep.1.2.trans hflag)⟩
        · rcases hth with hth | ⟨m, hth⟩
          · rw [runFrames_cons_none jparse bound cur0 _ d rest st hth]
            have hnt := runFrames_nonterminal jparse bound cur0 rest
              (processSSELine jparse bound cur0 (str ("error")) d st).1 hrest
            refine Or.inr (Or.inr (Or.inl ⟨hnt.1, ?_, hnt.2.2.1.trans (hstep.1.1.trans hres),
              hnt.2.2.2.trans (hstep.1.2.trans hflag)⟩))
            rw [hnt.2.1, hout]
          · rw [runFrames_cons_some jparse bound cur0 _ d rest st (JsErr.errE m) hth]
            exact Or.inr (Or.inr (Or.inr ⟨m, rfl, hout, hstep.1.1.trans hres,
              hstep.1.2.trans hflag⟩))
    · have hne : e ≠ str ("result") ∧ e ≠ str ("error") := by
        simp only [isTerminalEv] at hte
        by_cases hor : e = str ("result") ∨ e = str ("error")
        · simp [hor] at hte
        · exact ⟨fun hx => hor (Or.inl hx), fun hx => hor (Or.inr hx)⟩
      have hstep := processSSELine_nonterminal jparse bound cur0 e d st hne.1 hne.2
      rw [runFrames_cons_none jparse bound cur0 e d rest st hstep.1]
      have hterm2 : terminalCount rest ≤ 1 := by
        rw [terminalCount_cons, if_neg hte] at hterm
        omega
      have ihr := ih (processSSELine jparse bound cur0 e d st).1 hterm2
        (hstep.2.2.1.trans hres) (hstep.2.2.2.trans hflag)
      rcases ihr with h | h | h | h
      · exact Or.inl ⟨h.1, h.2.1.trans hstep.2.1, h.2.2.1, h.2.2.2⟩
      · exact Or.inr (Or.inl ⟨h.1, h.2.1.trans hstep.2.1, h.2.2⟩)
      · refine Or.inr (Or.inr (Or.inl ⟨h.1, ?_, h.2.2.1, h.2.2.2⟩))
        rw [h.2.1, hstep.2.1]
      · obtain ⟨m, hm⟩ := h
        refine Or.inr (Or.inr (Or.inr ⟨m, hm.1, ?_, hm.2.2.1, hm.2.2.2⟩))
        rw [hm.2.1, hstep.2.1]

theorem handleCatch_abortE_eq (bound cur0 : Str) (st : LoopState) :
    handleCatch bound cur0 JsErr.abortE st
      = { st with outcomes := st.outcomes ++ [Outcome.cancelled] } := rfl

theorem handleCatch_errE_char (bound cur0 m : Str) (st : LoopState) :
    ((handleCatch bound cur0 (JsErr.errE m) st).outcomes = st.outcomes
      ∨ (handleCatch bound cur0 (JsErr.errE m) st).outcomes
          = st.outcomes ++ [Outcome.catchErrorApplied])
    ∧ (handleCatch bound cur0 (JsErr.errE m) st).hasReceivedResult
        = st.hasReceivedResult := by
  have hE : handleCatch bound cur0 (JsErr.errE m) st = handleCatchMsg bound cur0 m st := rfl
  rw [hE]
  unfold handleCatchMsg
  split
  · exact ⟨Or.inr (by simp [applyCatchError]), by simp [applyCatchError]⟩
  · split
    · exact ⟨Or.inl rfl, rfl⟩
    · exact ⟨Or.inr (by simp [applyCatchError]), by simp [applyCatchError]⟩

/-- The five possible terminal-outcome traces of a consumer run over a
stream with at most one terminal frame, where cancellation only races
with non-terminal frames. -/
theorem consumeFrames_outcomes (jparse : Str → Option Json) (c0 : ClientState)
    (frames : List (Str × Str)) (aborted : Bool)
    (h1 : terminalCount frames ≤ 1)
    (h2 : aborted = true → terminalCount frames = 0) :
    (aborted = true
      ∧ (consumeFrames jparse c0 frames aborted).outcomes = [Outcome.cancelled]
      ∧ (consumeFrames jparse c0 frames aborted).hasReceivedResult = false)
    ∨ (aborted = false
      ∧ (((consumeFrames jparse c0 frames aborted).outcomes = [Outcome.syntheticNoResult]
            ∧ (consumeFrames jparse c0 frames aborted).hasReceivedResult = false)
        ∨ ((consumeFrames jparse c0 frames aborted).outcomes = [Outcome.resultApplied]
            ∧ (consumeFrames jparse c0 frames aborted).hasReceivedResult = true)
        ∨ ((consumeFrames jparse c0 frames aborted).outcomes
              = [Outcome.errorFrameApplied, Outcome.syntheticNoResult]
            ∧ (consumeFrames jparse c0 frames aborted).hasReceivedResult = false)
        ∨ ((consumeFrames jparse c0 frames aborted).outcomes = [Outcome.errorFrameApplied]
            ∧ (consumeFrames jparse c0 frames aborted).hasReceivedResult = false)
        ∨ ((consumeFrames jparse c0 frames aborted).outcomes
              = [Outcome.errorFrameApplied, Outcome.catchErrorApplied]
            ∧ (consumeFrames jparse c0 frames aborted).hasReceivedResult = false))) := by
  cases aborted with
  | true =>
    have h0 := h2 rfl
    have hall := terminalCount_zero_all frames h0
    have hnt := runFrames_nonterminal jparse c0.currentConversationId c0.currentConversationId
      frames (initLoop c0) hall
    have hcf : consumeFrames jparse c0 frames true
        = handleCatch c0.currentConversationId c0.currentConversationId JsErr.abortE
            (runFrames jparse c0.currentConversationId c0.currentConversationId frames
              (initLoop c0)).1 := by
      simp only [consumeFrames]
      rw [hnt.1]
      simp
    refine Or.inl ⟨rfl, ?_, ?_⟩
    · rw [hcf, handleCatch_abortE_eq]
      simp only
      rw [hnt.2.1]
      rfl
    · rw [hcf, handleCatch_abortE_eq]
      simp only
      rw [hnt.2.2.2]
      rfl
  | false =>
    rcases runFrames_char jparse c0.currentConversationId c0.currentConversationId frames
        (initLoop c0) h1 rfl rfl with h | h | h | h
    · have hcf : consumeFrames jparse c0 frames false
          = postStream c0.currentConversationId c0.currentConversationId
              (runFrames jparse c0.currentConversationId c0.currentConversationId frames
                (initLoop c0)).1 := by
        simp only [consumeFrames]
        rw [h.1]
        simp
      refine Or.inr ⟨rfl, Or.inl ⟨?_, ?_⟩⟩
      · rw [hcf, postStream_noTerminal _ _ _ h.2.2.1 h.2.2.2, h.2.1]
        rfl
      · rw [hcf, postStream_keeps_flag]
        exact h.2.2.2
    · have hcf : consumeFrames jparse c0 frames false
          = postStream c0.currentConversationId c0.currentConversationId
              (runFrames jparse c0.currentConversationId c0.currentConversationId frames
                (initLoop c0)).1 := by
        simp only [consumeFrames]
        rw [h.1]
        simp
      refine Or.inr ⟨rfl, Or.inr (Or.inl ⟨?_, ?_⟩)⟩
      · rw [hcf, postStream_gotTerminal _ _ _ h.2.2, h.2.1]
        rfl
      · rw [hcf, postStream_keeps_flag]
        exact h.2.2
    · have hcf : consumeFrames jparse c0 frames false
          = postStream c0.currentConversationId c0.currentConversationId
              (runFrames jparse c0.currentConversationId c0.currentConversationId frames
                (initLoop c0)).1 := by
        simp only [consumeFrames]
        rw [h.1]
        simp
      refine Or.inr ⟨rfl, Or.inr (Or.inr (Or.inl ⟨?_, ?_⟩))⟩
      · rw [hcf, postStream_noTerminal _ _ _ h.2.2.1 h.2.2.2, h.2.1]
        rfl
      · rw [hcf, postStream_keeps_flag]
        exact h.2.2.2
    · obtain ⟨m, hth, hout, hres, hflag⟩ := h
      have hcf : consumeFrames jparse c0 frames false
          = handleCatch c0.currentConversationId c0.currentConversationId (JsErr.errE m)
              (runFrames jparse c0.currentConversationId c0.currentConversationId frames
                (initLoop c0)).1 := by
        simp only [consumeFrames]
        rw [hth]
      have hcc := handleCatch_errE_char c0.currentConversationId c0.currentConversationId m
        (runFrames jparse c0.currentConversationId c0.currentConversationId frames
          (initLoop c0)).1
      rcases hcc.1 with hcase | hcase
      · refine Or.inr ⟨rfl, Or.inr (Or.inr (Or.inr (Or.inl ⟨?_, ?_⟩)))⟩
        · rw [hcf, hcase, hout]
          rfl
        · rw [hcf, hcc.2]
          exact hflag
      · refine Or.inr ⟨rfl, Or.inr (Or.inr (Or.inr (Or.inr ⟨?_, ?_⟩)))⟩
        · rw [hcf, hcase, hout]
          rfl
        · rw [hcf, hcc.2]
          exact hflag

/-- C5.  Over a stream with at most one terminal frame (the
ProgressStream contract) where cancellation races only with
non-terminal frames, the consumer applies exactly one of: a result, an
error (of any kind), or cancellation.  Once a result frame has been
received, even garbled, the synthetic no-result error is never also
emitted, and a cancelled request emits no error at all. -/
theorem c5_exactly_one_terminal (jparse : Str → Option Json) (c0 : ClientState)
    (frames : List (Str × Str)) (aborted : Bool)
    (h1 : terminalCount frames ≤ 1)
    (h2 : aborted = true → terminalCount frames = 0) :
    ((resultAppliedB (consumeFrames jparse c0 frames aborted) = true
        ∧ errorAppliedB (consumeFrames jparse c0 frames aborted) = false
        ∧ cancelledB (consumeFrames jparse c0 frames aborted) = false)
      ∨ (resultAppliedB (consumeFrames jparse c0 frames aborted) = false
        ∧ errorAppliedB (consumeFrames jparse c0 frames aborted) = true
        ∧ cancelledB (consumeFrames jparse c0 frames aborted) = false)
      ∨ (resultAppliedB (consumeFrames jparse c0 frames aborted) = false
        ∧ errorAppliedB (consumeFrames jparse c0 frames aborted) = false
        ∧ cancelledB (consumeFrames jparse c0 frames aborted) = true))
    ∧ ((consumeFrames jparse c0 frames aborted).hasReceivedResult = true →
        Outcome.syntheticNoResult ∉ (consumeFrames jparse c0 frames aborted).outcomes)
    ∧ (aborted = true →
        (consumeFrames jparse c0 frames aborted).outcomes = [Outcome.cancelled]) := by
  rcases consumeFrames_outcomes jparse c0 frames aborted h1 h2 with
    ⟨hab, hout, hflag⟩ | ⟨hab, hsub⟩
  · refine ⟨Or.inr (Or.inr ⟨?_, ?_, ?_⟩), ?_, fun _ => hout⟩
    · simp only [resultAppliedB]
      rw [hout]
      decide
    · simp only [errorAppliedB]
      rw [hout]
      decide
    · simp only [cancelledB]
      rw [hout]
      decide
    · intro h
      rw [h] at hflag
      exact absurd hflag (by decide)
  · rcases hsub with ⟨hout, hflag⟩ | ⟨hout, hflag⟩ | ⟨hout, hflag⟩ | ⟨hout, hflag⟩ | ⟨hout, hflag⟩
    all_goals refine ⟨?_, ?_, fun habs => ?_⟩
    all_goals try exact absurd (habs ▸ hab) (by decide)
    · refine Or.inr (Or.inl ⟨?_, ?_, ?_⟩) <;>
        first
          | (simp only [resultAppliedB]; rw [hout]; decide)
          | (simp only [errorAppliedB]; rw [hout]; decide)
          | (simp only [cancelledB]; rw [hout]; decide)
    · intro h
      rw [h] at hflag
      exact absurd hflag (by decide)
    · refine Or.inl ⟨?_, ?_, ?_⟩ <;>
        first
          | (simp only [resultAppliedB]; rw [hout]; decide)
          | (simp only [errorAppliedB]; rw [hout]; decide)
          | (simp only [cancelledB]; rw [hout]; decide)
    · intro _
      rw [hout]
      decide
    · refine Or.inr (Or.inl ⟨?_, ?_, ?_⟩) <;>
        first
          | (simp only [resultAppliedB]; rw [hout]; decide)
          | (simp only [errorAppliedB]; rw [hout]; decide)
          | (simp only [cancelledB]; rw [hout]; decide)
    · intro h
      rw [h] at hflag
      exact absurd hflag (by decide)
    · refine Or.inr (Or.inl ⟨?_, ?_, ?_⟩) <;>
        first
          | (simp only [resultAppliedB]; rw [hout]; decide)
          | (simp only [errorAppliedB]; rw [hout]; decide)
          | (simp only [cancelledB]; rw [hout]; decide)
    · intro h
      rw [h] at hflag
      exact absurd hflag (by decide)
    · refine Or.inr (Or.inl ⟨?_, ?_, ?_⟩) <;>
        first
          | (simp only [resultAppliedB]; rw [hout]; decide)
          | (simp only [errorAppliedB]; rw [hout]; decide)
          | (simp only [cancelledB]; rw [hout]; decide)
    · intro h
      rw [h] at hflag
      exact absurd hflag (by decide)

def demoFrames : List (Str × Str) :=
  [(str ("progress"), progressPayload), (str ("result"), resultPayload)]

theorem c5_exactly_one_terminal_witness :
    (terminalCount demoFrames ≤ 1
      ∧ ((false : Bool) = true → terminalCount demoFrames = 0))
    ∧ (((resultAppliedB (consumeFrames jparseDemo baseState demoFrames false) = true
          ∧ errorAppliedB (consumeFrames jparseDemo baseState demoFrames false) = false
          ∧ cancelledB (consumeFrames jparseDemo baseState demoFrames false) = false)
        ∨ (resultAppliedB (consumeFrames jparseDemo baseState demoFrames false) = false
          ∧ errorAppliedB (consumeFrames jparseDemo baseState demoFrames false) = true
          ∧ cancelledB (consumeFrames jparseDemo baseState demoFrames false) = false)
        ∨ (resultAppliedB (consumeFrames jparseDemo baseState demoFrames false) = false
          ∧ errorAppliedB (consumeFrames jparseDemo baseState demoFrames false) = false
          ∧ cancelledB (consumeFrames jparseDemo baseState demoFrames false) = true))
      ∧ ((consumeFrames jparseDemo baseState demoFrames false).hasReceivedResult = true →
          Outcome.syntheticNoResult ∉ (consumeFrames jparseDemo baseState demoFrames false).outcomes)
      ∧ ((false : Bool) = true →
          (consumeFrames jparseDemo baseState demoFrames false).outcomes
            = [Outcome.cancelled])) :=
  ⟨⟨by decide, by decide⟩,
    c5_exactly_one_terminal jparseDemo baseState demoFrames false (by decide) (by decide)⟩

end FindPaper
